import Mathlib

/-!
Verification of the progress/exam evaluation engine of the LMS backend.

The definitions below are a shallow embedding of the progress controller
(`src/controllers/progress.controller.js`) and of the course-completion
controller (`completeCourse`), over the Sequelize data model
(`course.model.js`, `enrollment.model.js`, the Question and ExamAttempt
models).  JavaScript numbers are modelled by `ℚ`; integer database columns by
`ℤ`; nullable columns and absent/non-numeric request fields by `Option`
(an absent field behaves as `undefined`, whose `Number(·)` image is `NaN` and
which is falsy under `||`).  Timestamps are modelled by an abstract `Nat`
clock value passed in as `now`.
-/

namespace LMS

/-- The `contentType` column: ENUM('text', 'video', 'audio'). -/
inductive ContentType where
  | text
  | video
  | audio
  deriving DecidableEq, Repr

/-- The `questionType` column: ENUM('mcq', 'quiz'). -/
inductive QuestionType where
  | mcq
  | quiz
  deriving DecidableEq, Repr

/-- One MCQ option, an element of the `options` JSONB array: `{id, text, isCorrect}`. -/
structure ChoiceOption where
  id : String
  text : String
  isCorrect : Bool
  deriving DecidableEq, Repr

/-- A row of the `questions` table (fields used by the engine). -/
structure Question where
  id : String
  questionText : String
  questionType : QuestionType
  options : Option (List ChoiceOption)
  correctAnswer : Option String
  points : ℤ
  order : ℤ
  deriving DecidableEq, Repr

/-- A row of the `courses` table (fields used by the engine), together with its
question bank (`Question.findAll({where: {courseId}})`). -/
structure Course where
  contentType : ContentType
  textContent : Option String
  contentDurationSeconds : Option ℚ
  requiredReadingMinutes : Option ℤ
  passingScore : ℤ
  questions : List Question
  deriving DecidableEq, Repr

/-- A row of the `enrollments` table (fields used by the engine). -/
structure Enrollment where
  progress : ℤ
  contentProgress : ℤ
  contentCompletedAt : Option Nat
  timeSpentSeconds : ℚ
  examPassed : Bool
  examScore : Option ℚ
  examAttemptCount : ℤ
  completed : Bool
  completedAt : Option Nat
  certificateUrl : Option String
  deriving DecidableEq, Repr

/-- A fresh enrollment row, as created on purchase: every engine-owned column
takes its model default (`0`, `false` or `NULL`). -/
def initEnrollment : Enrollment :=
  { progress := 0
    contentProgress := 0
    contentCompletedAt := none
    timeSpentSeconds := 0
    examPassed := false
    examScore := none
    examAttemptCount := 0
    completed := false
    completedAt := none
    certificateUrl := none }

/-- Body of an update-progress request with numeric-or-absent fields.  `none`
models an absent or `null` field (`undefined || 0` is `0`).  For the two
position fields this also covers any non-numeric value, since the video/audio
branch consumes them only through `Number(·)` (whose image is then `NaN`) and
finiteness guards.  It does **not** cover a non-numeric string in
`timeSpentSeconds`: the text branch applies `|| 0` to the raw value, a
non-empty string is truthy and is kept, and `+` then concatenates — that path
is modelled separately by `BodyValue` and `textUpdateJS` below. -/
structure ProgressInput where
  currentPositionSeconds : Option ℚ
  totalDurationSeconds : Option ℚ
  timeSpentSeconds : Option ℚ
  deriving DecidableEq, Repr

/-- JS `x || 0` on an integer value: `0` is falsy, every other number truthy.
(On non-null integers this is the identity; kept to mirror the source.) -/
def jsOrZero (x : ℤ) : ℤ :=
  if x = 0 then 0 else x

/-- JS `x || 0` on a (non-null) numeric value. -/
def jsOrZeroQ (x : ℚ) : ℚ :=
  if x = 0 then 0 else x

/-- JS truthiness of a nullable integer column (`null` and `0` are falsy). -/
def numTruthy : Option ℤ → Bool
  | none => false
  | some m => m != 0

/-- JS truthiness of a nullable string column (`null` and `""` are falsy). -/
def strTruthy : Option String → Bool
  | none => false
  | some s => s != ""

/-- JS `String.prototype.trim`, modelled on the character list: whitespace is
removed from both ends. -/
def jsTrim (l : List Char) : List Char :=
  ((l.dropWhile (fun ch => ch.isWhitespace)).reverse.dropWhile
      (fun ch => ch.isWhitespace)).reverse

/-- Number of fields of `t.split(/\s+/)` for an already-trimmed `t`: the
number of maximal runs of non-whitespace characters.  The fold carries
(count so far, currently inside a word). -/
def wordRuns (l : List Char) : ℕ :=
  (l.foldl
    (fun s ch =>
      if ch.isWhitespace then (s.1, false)
      else (if s.2 then s.1 else s.1 + 1, true))
    ((0 : ℕ), false)).1

/-- The expression `s.trim().split(/\s+/).length` from the text branch of `updateProgress`.
On a trimmed non-empty string, splitting on `/\s+/` yields the maximal runs of
non-whitespace characters; in JS `"".split(/\s+/)` is `[""]`, of length 1. -/
def jsWordCount (s : String) : ℕ :=
  let t := jsTrim s.data
  if t = [] then 1 else wordRuns t

/-- JS `s.toLowerCase().trim()`, as the character list it denotes (two JS
strings are `===` exactly when their character lists are equal). -/
def jsLowerTrim (s : String) : List Char :=
  jsTrim (s.data.map Char.toLower)

/-- Resolution of `requiredSeconds` in the text branch of `updateProgress`:
explicit `requiredReadingMinutes * 60` when truthy, else
`max(ceil(wordCount / 200 * 60), 10)` from the text body, else the
fallback constant `10`. -/
def requiredSecondsFor (c : Course) : ℚ :=
  if numTruthy c.requiredReadingMinutes then
    ((c.requiredReadingMinutes.getD 0 : ℤ) : ℚ) * 60
  else if strTruthy c.textContent then
    let wordCount : ℕ := jsWordCount (c.textContent.getD "")
    ((max (⌈((wordCount : ℚ) / 200) * 60⌉) 10 : ℤ) : ℚ)
  else 10

/-- Video/audio branch of `updateProgress`: returns the new `contentProgress`
together with the (possibly patched) course row.  Mirrors the source:
`Number(course.contentDurationSeconds)` maps the `null` column to `0`; a
missing duration is adopted from a finite positive `totalDurationSeconds`
(and persisted back to the course); a position above twice the duration is
assumed to be milliseconds; progress is computed only when the duration is a
finite positive number and the position is finite. -/
def videoAudioProgress (c : Course) (e : Enrollment) (input : ProgressInput) :
    ℤ × Course :=
  let duration0 : ℚ := c.contentDurationSeconds.getD 0
  let adopted : Option ℚ :=
    if duration0 = 0 then
      match input.totalDurationSeconds with
      | some t => if 0 < t then some t else none
      | none => none
    else none
  let duration : ℚ := adopted.getD duration0
  let c' : Course :=
    match adopted with
    | some t => { c with contentDurationSeconds := some t }
    | none => c
  let position : Option ℚ :=
    input.currentPositionSeconds.map (fun p => if duration * 2 < p then p / 1000 else p)
  let contentProgress : ℤ :=
    match position with
    | some p =>
      if 0 < duration then
        min 100 (max (jsOrZero e.contentProgress) (round (p / duration * 100)))
      else e.contentProgress
    | none => e.contentProgress
  (contentProgress, c')

/-- Text branch of `updateProgress`: returns the new `contentProgress` and the
new cumulative `timeSpentSeconds`. -/
def textProgress (c : Course) (e : Enrollment) (input : ProgressInput) : ℤ × ℚ :=
  let newTimeSpent : ℚ := jsOrZeroQ e.timeSpentSeconds + (input.timeSpentSeconds.getD 0)
  let requiredSeconds : ℚ := requiredSecondsFor c
  (min 100 (round (newTimeSpent / requiredSeconds * 100)), newTimeSpent)

/-- Result of `updateProgress`: the updated enrollment row and the course row
(which changes only when an unknown media duration is adopted). -/
structure UpdateResult where
  enrollment : Enrollment
  course : Course
  deriving DecidableEq, Repr

/-- The `updateProgress` controller on an existing enrollment (the not-enrolled 404 path is
request glue outside the engine), for numeric-or-absent body fields.  After
the per-type branch, the controller stamps `contentCompletedAt` on the first
transition to 100 and mirrors `contentProgress` into `progress`.  A text
update whose `timeSpentSeconds` is a raw non-numeric string leaves this
fragment: see `textUpdateJS`. -/
def updateProgress (c : Course) (e : Enrollment) (input : ProgressInput)
    (now : Nat) : UpdateResult :=
  let r : ℤ × ℚ × Course :=
    match c.contentType with
    | .video | .audio =>
      let va := videoAudioProgress c e input
      (va.1, e.timeSpentSeconds, va.2)
    | .text =>
      let t := textProgress c e input
      (t.1, t.2, c)
  let contentProgress := r.1
  let contentCompletedAt : Option Nat :=
    if 100 ≤ contentProgress ∧ e.contentCompletedAt = none then some now
    else e.contentCompletedAt
  { enrollment :=
      { e with
        contentProgress := contentProgress
        timeSpentSeconds := r.2.1
        contentCompletedAt := contentCompletedAt
        progress := contentProgress }
    course := r.2.2 }

/-- One step of a sequence of update-progress requests: the course row is
threaded through because a duration adoption persists. -/
def updateStep (now : Nat) (s : Course × Enrollment) (input : ProgressInput) :
    Course × Enrollment :=
  let r := updateProgress s.1 s.2 input now
  (r.course, r.enrollment)

/-- A sequence of update-progress requests applied in order. -/
def runUpdates (s : Course × Enrollment) (inputs : List ProgressInput)
    (now : Nat) : Course × Enrollment :=
  inputs.foldl (updateStep now) s

/-! ### JS-typed model of the text branch for raw body values

The fragment above consumes numeric-or-absent telemetry.  The text branch of
the source, however, reads the raw body value: in
`(enrollment.timeSpentSeconds || 0) + (timeSpentSeconds || 0)` a non-empty
string is truthy and survives `|| 0`, `+` string-concatenates, the division
coerces the result back through `ToNumber`, and a non-numeric outcome makes
`contentProgress` equal to `NaN`, which `enrollment.save()` then rejects
through the model's `min: 0, max: 100` validators (the request fails and no
state is persisted).  The definitions below model that pipeline; the
cumulative counter is taken as the INTEGER column value it is stored as. -/

/-- A raw request-body value as JS sees it: a number, a string, or
absent/`null`. -/
inductive BodyValue where
  | num (q : ℚ)
  | str (s : String)
  | undefined
  deriving DecidableEq, Repr

/-- JS `v || 0` on a raw body value: `undefined`, `null`, `0` and `""` are
falsy and yield the number `0`; any other number or string is kept. -/
def jsOrZeroBody : BodyValue → BodyValue
  | .num q => if q = 0 then .num 0 else .num q
  | .str s => if s = "" then .num 0 else .str s
  | .undefined => .num 0

/-- A JavaScript number: `NaN`, a signed infinity, or a finite value
(idealised as an exact rational, as numbers are throughout this file). -/
inductive JSNumber where
  | nan
  | posInf
  | negInf
  | fin (q : ℚ)
  deriving DecidableEq, Repr

/-- Value of a decimal-digit character. -/
def digitVal (ch : Char) : ℕ := ch.toNat - 48

/-- Value of a string of decimal digits. -/
def decDigitsVal (l : List Char) : ℕ :=
  l.foldl (fun a ch => a * 10 + digitVal ch) 0

/-- Value of a hexadecimal-digit character, if it is one. -/
def hexDigitVal? (ch : Char) : Option ℕ :=
  if ch.isDigit then some (ch.toNat - 48)
  else if 'a' ≤ ch ∧ ch ≤ 'f' then some (ch.toNat - 87)
  else if 'A' ≤ ch ∧ ch ≤ 'F' then some (ch.toNat - 55)
  else none

/-- Value of an octal-digit character, if it is one. -/
def octDigitVal? (ch : Char) : Option ℕ :=
  if '0' ≤ ch ∧ ch ≤ '7' then some (ch.toNat - 48) else none

/-- Value of a binary-digit character, if it is one. -/
def binDigitVal? (ch : Char) : Option ℕ :=
  if ch = '0' then some 0 else if ch = '1' then some 1 else none

/-- Value of a non-empty all-valid digit string in the given base, else
`none` (used for the `0x`/`0o`/`0b` integer literals of JS `ToNumber`). -/
def radixVal? (base : ℕ) (val? : Char → Option ℕ) (l : List Char) : Option ℕ :=
  if l.isEmpty then none
  else
    l.foldl
      (fun acc ch =>
        match acc, val? ch with
        | some a, some d => some (a * base + d)
        | _, _ => none)
      (some 0)

/-- An `ExponentPart` (`e`/`E`, optional sign, digits) that must consume the
whole remainder, per the JS string numeric grammar. -/
def parseExponent : List Char → Option ℤ
  | [] => none
  | ch :: rest =>
    if ch = 'e' ∨ ch = 'E' then
      match rest with
      | '+' :: ds =>
        if !ds.isEmpty && ds.all (fun d => d.isDigit) then some (decDigitsVal ds : ℤ)
        else none
      | '-' :: ds =>
        if !ds.isEmpty && ds.all (fun d => d.isDigit) then some (-(decDigitsVal ds : ℤ))
        else none
      | ds =>
        if !ds.isEmpty && ds.all (fun d => d.isDigit) then some (decDigitsVal ds : ℤ)
        else none
    else none

/-- A `StrUnsignedDecimalLiteral` without the `Infinity` form:
`digits [. digits] [exponent]` or `. digits [exponent]`, consuming the whole
input. -/
def parseUnsignedDecimal (l : List Char) : Option ℚ :=
  let p1 := l.span (fun ch => ch.isDigit)
  match p1.2 with
  | '.' :: rest =>
    let p2 := rest.span (fun ch => ch.isDigit)
    if p1.1.isEmpty && p2.1.isEmpty then none
    else
      let m : ℚ := (decDigitsVal p1.1 : ℚ) + (decDigitsVal p2.1 : ℚ) / (10 : ℚ) ^ p2.1.length
      match p2.2 with
      | [] => some m
      | _ => (parseExponent p2.2).map (fun ex => m * (10 : ℚ) ^ ex)
  | _ =>
    if p1.1.isEmpty then none
    else
      let m : ℚ := (decDigitsVal p1.1 : ℚ)
      match p1.2 with
      | [] => some m
      | _ => (parseExponent p1.2).map (fun ex => m * (10 : ℚ) ^ ex)

/-- A `StrUnsignedDecimalLiteral` (possibly negated by the caller):
`Infinity` or a decimal literal; anything else is `NaN`. -/
def parseSignedPart (l : List Char) (neg : Bool) : JSNumber :=
  if l = ['I', 'n', 'f', 'i', 'n', 'i', 't', 'y'] then
    if neg then .negInf else .posInf
  else
    match parseUnsignedDecimal l with
    | some q => .fin (if neg then -q else q)
    | none => .nan

/-- JS `ToNumber` on a string: trim, empty means `0`, an optional sign before
`Infinity` or a decimal literal, or an unsigned `0x`/`0o`/`0b` integer
literal; everything else is `NaN`.  (Whitespace is approximated by
`Char.isWhitespace`, as in `jsTrim`.) -/
def jsStringToNumber (s : String) : JSNumber :=
  match jsTrim s.data with
  | [] => .fin 0
  | '+' :: rest => parseSignedPart rest false
  | '-' :: rest => parseSignedPart rest true
  | '0' :: 'x' :: ds =>
    match radixVal? 16 hexDigitVal? ds with
    | some n => .fin (n : ℚ)
    | none => .nan
  | '0' :: 'X' :: ds =>
    match radixVal? 16 hexDigitVal? ds with
    | some n => .fin (n : ℚ)
    | none => .nan
  | '0' :: 'o' :: ds =>
    match radixVal? 8 octDigitVal? ds with
    | some n => .fin (n : ℚ)
    | none => .nan
  | '0' :: 'O' :: ds =>
    match radixVal? 8 octDigitVal? ds with
    | some n => .fin (n : ℚ)
    | none => .nan
  | '0' :: 'b' :: ds =>
    match radixVal? 2 binDigitVal? ds with
    | some n => .fin (n : ℚ)
    | none => .nan
  | '0' :: 'B' :: ds =>
    match radixVal? 2 binDigitVal? ds with
    | some n => .fin (n : ℚ)
    | none => .nan
  | t => parseSignedPart t false

/-- JS `ToString` of an integral number (the `timeSpentSeconds` INTEGER
column): plain decimal digits with an optional leading minus. -/
def jsIntToString (n : ℤ) : String := toString n

/-- JS division of the (possibly coerced) cumulative value by the required
seconds. -/
def jsDiv : JSNumber → ℚ → JSNumber
  | .nan, _ => .nan
  | .posInf, b => if b < 0 then .negInf else .posInf
  | .negInf, b => if b < 0 then .posInf else .negInf
  | .fin q, b =>
    if b = 0 then (if q = 0 then .nan else if 0 < q then .posInf else .negInf)
    else .fin (q / b)

/-- JS multiplication by 100. -/
def jsMul100 : JSNumber → JSNumber
  | .nan => .nan
  | .posInf => .posInf
  | .negInf => .negInf
  | .fin q => .fin (q * 100)

/-- JS `Math.round`. -/
def jsRound : JSNumber → JSNumber
  | .nan => .nan
  | .posInf => .posInf
  | .negInf => .negInf
  | .fin q => .fin ((round q : ℤ) : ℚ)

/-- JS `Math.min(100, ·)` (`NaN` propagates). -/
def jsMin100 : JSNumber → JSNumber
  | .nan => .nan
  | .posInf => .fin 100
  | .negInf => .negInf
  | .fin q => .fin (min 100 q)

/-- Whether the enrollment model's `min: 0, max: 100` validators on
`contentProgress`/`progress` accept the computed value; `NaN` and the
infinities fail, so `save()` throws and the request errors. -/
def contentProgressValid : JSNumber → Bool
  | .fin q => decide (0 ≤ q) && decide (q ≤ 100)
  | _ => false

/-- Outcome of the text branch followed by `enrollment.save()` for a raw
request value. -/
structure TextUpdateOutcome where
  newTimeSpent : ℚ ⊕ String
  contentProgress : JSNumber
  saved : Bool

/-- The text branch of `updateProgress` executed on a raw body value `v`,
tracking JS dynamic typing.  `ts` is the stored cumulative counter (INTEGER
column).  `newTimeSpent = (ts || 0) + (v || 0)` is a number, or a string when
a truthy string concatenates; the division coerces it via `ToNumber`;
`contentProgress = Math.min(100, Math.round(cum / requiredSeconds * 100))`;
`saved` tells whether the model validators accept the result — when they do
not, `save()` throws, the controller forwards the error and nothing is
persisted. -/
def textUpdateJS (c : Course) (ts : ℤ) (v : BodyValue) : TextUpdateOutcome :=
  let base : ℤ := jsOrZero ts
  let inc : BodyValue := jsOrZeroBody v
  let newTimeSpent : ℚ ⊕ String :=
    match inc with
    | .num q => .inl ((base : ℚ) + q)
    | .str s => .inr (jsIntToString base ++ s)
    | .undefined => .inl (base : ℚ)
  let cum : JSNumber :=
    match newTimeSpent with
    | .inl q => .fin q
    | .inr s => jsStringToNumber s
  let contentProgress : JSNumber :=
    jsMin100 (jsRound (jsMul100 (jsDiv cum (requiredSecondsFor c))))
  { newTimeSpent := newTimeSpent
    contentProgress := contentProgress
    saved := contentProgressValid contentProgress }

/-- The status object computed by `getProgress` (fields the gates depend on). -/
structure StatusView where
  contentProgress : ℤ
  contentCompleted : Bool
  contentCompletedAt : Option Nat
  timeSpentSeconds : ℚ
  examPassed : Bool
  examScore : Option ℚ
  examAttemptCount : ℤ
  hasQuestions : Bool
  questionCount : ℕ
  passingScore : ℤ
  canTakeExam : Bool
  canGetCertificate : Bool
  deriving DecidableEq, Repr

/-- The `getProgress` controller: read-only status aggregation.  `questionCount` is
`Question.count({where: {courseId}})`, i.e. the size of the course's bank;
`canGetCertificate = contentCompleted && (!hasQuestions || examPassed)`. -/
def getProgress (c : Course) (e : Enrollment) : StatusView :=
  let questionCount : ℕ := c.questions.length
  let contentCompleted : Bool := decide (100 ≤ e.contentProgress)
  let hasQuestions : Bool := decide (0 < questionCount)
  let canTakeExam : Bool := contentCompleted
  let canGetCertificate : Bool := contentCompleted && (!hasQuestions || e.examPassed)
  { contentProgress := e.contentProgress
    contentCompleted := contentCompleted
    contentCompletedAt := e.contentCompletedAt
    timeSpentSeconds := e.timeSpentSeconds
    examPassed := e.examPassed
    examScore := e.examScore
    examAttemptCount := e.examAttemptCount
    hasQuestions := hasQuestions
    questionCount := questionCount
    passingScore := c.passingScore
    canTakeExam := canTakeExam
    canGetCertificate := canGetCertificate }

/-- Outcome of `completeCourse`.  The certificate pipeline (PDF rendering,
upload, email) is an external best-effort side channel whose failures are
swallowed; `certificateUrl` is written by that collaborator, so the engine
model leaves it untouched. -/
inductive CompleteOutcome where
  | alreadyCompleted (e : Enrollment)
  | contentIncomplete (contentProgress : ℤ)
  | examNotPassed (examScore : Option ℚ) (examAttempts : ℤ)
  | completed (e : Enrollment)
  deriving DecidableEq, Repr

/-- The `completeCourse` controller.  Note that the function does
not consult the course's question bank at all: after the content gate it
requires `examPassed` unconditionally. -/
def completeCourse (e : Enrollment) (now : Nat) : CompleteOutcome :=
  if e.completed then .alreadyCompleted e
  else if e.contentProgress < 100 then .contentIncomplete e.contentProgress
  else if !e.examPassed then .examNotPassed e.examScore e.examAttemptCount
  else
    .completed { e with progress := 100, completed := true, completedAt := some now }

/-- Whether a `completeCourse` call answered with HTTP 200 `success: true`
(either freshly completed or already completed) rather than a gate failure. -/
def completeOk : CompleteOutcome → Bool
  | .alreadyCompleted _ => true
  | .completed _ => true
  | .contentIncomplete _ => false
  | .examNotPassed _ _ => false

/-- An MCQ option as returned by `getExam`: `isCorrect` stripped. -/
structure PublicChoice where
  id : String
  text : String
  deriving DecidableEq, Repr

/-- A question as returned by `getExam`: the query selects only
`id, questionText, questionType, options, points` (no `correctAnswer`, no
`order`), and the options are mapped to `{id, text}`. -/
structure PublicQuestion where
  id : String
  questionText : String
  questionType : QuestionType
  options : Option (List PublicChoice)
  points : ℤ
  deriving DecidableEq, Repr

/-- The sanitisation `getExam` applies to each question row. -/
def sanitizeQuestion (q : Question) : PublicQuestion :=
  { id := q.id
    questionText := q.questionText
    questionType := q.questionType
    options := q.options.map (List.map (fun opt => { id := opt.id, text := opt.text }))
    points := q.points }

/-- The comparison realising the query's `ORDER BY order ASC`. -/
def byOrder (a b : Question) : Prop := a.order ≤ b.order

instance : DecidableRel byOrder := fun a b => inferInstanceAs (Decidable (a.order ≤ b.order))

/-- The question list as returned by the DB: sorted by the `order` column
(stably, by insertion sort). -/
def orderedQuestions (c : Course) : List Question :=
  List.insertionSort byOrder c.questions

/-- Successful payload of `getExam`. -/
structure ExamView where
  questions : List PublicQuestion
  questionCount : ℕ
  passingScore : ℤ
  attemptNumber : ℤ
  deriving DecidableEq, Repr

/-- Gate failure of `getExam`: content not finished. -/
inductive GetExamError where
  | contentIncomplete
  deriving DecidableEq, Repr

/-- The `getExam` controller on an existing enrollment: requires full content progress, then
returns the sanitised, order-sorted questions, the passing score and the next
attempt number. -/
def getExam (c : Course) (e : Enrollment) : Except GetExamError ExamView :=
  if e.contentProgress < 100 then .error .contentIncomplete
  else
    let sanitizedQuestions := (orderedQuestions c).map sanitizeQuestion
    .ok { questions := sanitizedQuestions
          questionCount := sanitizedQuestions.length
          passingScore := c.passingScore
          attemptNumber := e.examAttemptCount + 1 }

/-- The request's `answers` object: a map from question id to the submitted
answer (selected option id for mcq, free text for quiz); `none` models an id
the object has no key for (`answers[q.id]` is `undefined`). -/
def AnswerMap : Type := String → Option String

/-- Whether one question earns its points in `submitExam`.  mcq:
`q.options?.find(opt => opt.id === studentAnswer)` must yield an option with
`isCorrect`.  quiz: both the student answer and `correctAnswer` must be truthy
(non-empty) strings whose lowercased, trimmed forms coincide. -/
def questionCorrect (q : Question) (answers : AnswerMap) : Bool :=
  let studentAnswer := answers q.id
  match q.questionType with
  | .mcq =>
    match q.options.bind (fun opts => opts.find? (fun opt => studentAnswer == some opt.id)) with
    | some selectedOption => selectedOption.isCorrect
    | none => false
  | .quiz =>
    match studentAnswer, q.correctAnswer with
    | some s, some a =>
      s != "" && a != "" && (jsLowerTrim s == jsLowerTrim a)
    | _, _ => false

/-- Scoring pass of `submitExam` over the whole question bank. -/
structure ScoreResult where
  pointsEarned : ℤ
  totalPoints : ℤ
  score : ℚ
  passed : Bool
  deriving DecidableEq, Repr

/-- The scoring loop of `submitExam`: every question contributes its points to
`totalPoints`; correct ones also to `pointsEarned`;
`score = totalPoints > 0 ? pointsEarned / totalPoints * 100 : 0`;
`passed = score >= passingScore`. -/
def scoreExam (qs : List Question) (passingScore : ℤ) (answers : AnswerMap) :
    ScoreResult :=
  let totalPoints : ℤ := qs.foldl (fun acc q => acc + q.points) 0
  let pointsEarned : ℤ :=
    qs.foldl (fun acc q => acc + (if questionCorrect q answers then q.points else 0)) 0
  let score : ℚ := if 0 < totalPoints then ((pointsEarned : ℚ) / (totalPoints : ℚ)) * 100 else 0
  { pointsEarned := pointsEarned
    totalPoints := totalPoints
    score := score
    passed := decide ((passingScore : ℚ) ≤ score) }

/-- A row of the `exam_attempts` table as created by `submitExam`. -/
structure ExamAttempt where
  answers : AnswerMap
  score : ℚ
  passed : Bool
  attemptNumber : ℤ
  pointsEarned : ℤ
  totalPoints : ℤ

/-- Gate failures of `submitExam`. -/
inductive SubmitError where
  | contentIncomplete
  | noQuestions
  deriving DecidableEq, Repr

/-- The `submitExam` controller on an existing enrollment: content gate, non-empty bank,
scoring, creation of the attempt row with `attemptNumber = examAttemptCount + 1`,
then the enrollment mutation (`examAttemptCount` incremented unconditionally;
`examPassed`/`examScore` set only on a pass when not already passed). -/
def submitExam (c : Course) (e : Enrollment) (answers : AnswerMap) :
    Except SubmitError (ExamAttempt × Enrollment) :=
  if e.contentProgress < 100 then .error .contentIncomplete
  else if c.questions.length = 0 then .error .noQuestions
  else
    let r := scoreExam c.questions c.passingScore answers
    let attemptNumber : ℤ := e.examAttemptCount + 1
    let attempt : ExamAttempt :=
      { answers := answers
        score := r.score
        passed := r.passed
        attemptNumber := attemptNumber
        pointsEarned := r.pointsEarned
        totalPoints := r.totalPoints }
    let e1 := { e with examAttemptCount := attemptNumber }
    let e2 :=
      if r.passed && !e.examPassed then
        { e1 with examPassed := true, examScore := some r.score }
      else e1
    .ok (attempt, e2)

/-- One submission against the enrollment together with its append-only
attempt history; a gate failure leaves the state unchanged. -/
def submitStep (c : Course) (s : Enrollment × List ExamAttempt)
    (answers : AnswerMap) : Enrollment × List ExamAttempt :=
  match submitExam c s.1 answers with
  | .ok (attempt, e') => (e', s.2 ++ [attempt])
  | .error _ => s

/-- A sequence of `submitExam` calls applied in order. -/
def runSubmits (c : Course) (s : Enrollment × List ExamAttempt)
    (fs : List AnswerMap) : Enrollment × List ExamAttempt :=
  fs.foldl (submitStep c) s

/-! ### Basic lemmas about the embedding -/

theorem jsOrZero_eq (x : ℤ) : jsOrZero x = x := by
  unfold jsOrZero
  split <;> omega

theorem jsOrZeroQ_eq (x : ℚ) : jsOrZeroQ x = x := by
  unfold jsOrZeroQ
  split
  · exact Eq.symm (by assumption)
  · rfl

/-- The course row coming out of `updateProgress`'s video/audio branch is the
input row, or the input row with a freshly adopted positive duration. -/
theorem videoAudioProgress_course_eq (c : Course) (e : Enrollment)
    (input : ProgressInput) :
    (videoAudioProgress c e input).2 = c
    ∨ ∃ t, 0 < t ∧ input.totalDurationSeconds = some t
        ∧ (videoAudioProgress c e input).2 = { c with contentDurationSeconds := some t } := by
  unfold videoAudioProgress
  by_cases h0 : (c.contentDurationSeconds.getD 0 : ℚ) = 0
  · cases ht : input.totalDurationSeconds with
    | none => left; simp [h0, ht]
    | some t =>
      by_cases htpos : 0 < t
      · right; exact ⟨t, htpos, rfl, by simp [h0, ht, htpos]⟩
      · left; simp [h0, ht, htpos]
  · left; simp [h0]

/-! ### Concrete fixtures used by the counterexamples and witnesses -/

/-- A course whose question bank is empty (no exam). -/
def exZeroQuestionCourse : Course :=
  { contentType := .text
    textContent := some "hello world"
    contentDurationSeconds := none
    requiredReadingMinutes := none
    passingScore := 70
    questions := [] }

/-- An enrollment that has finished the content but never passed an exam. -/
def exReadyEnrollment : Enrollment :=
  { initEnrollment with contentProgress := 100, progress := 100 }

/-- A video course with a known 120-second duration. -/
def exVideoCourse : Course :=
  { contentType := .video
    textContent := none
    contentDurationSeconds := some 120
    requiredReadingMinutes := none
    passingScore := 70
    questions := [] }

/-- A progress report placing the playhead at raw position 5000. -/
def exVideoInput : ProgressInput :=
  { currentPositionSeconds := some 5000
    totalDurationSeconds := none
    timeSpentSeconds := none }

/-! ### Claims C1 and C2: the completion gate versus the status gate -/

/-- Claim C1 (code bug evidence): for an enrollment with `contentProgress = 100`
on a course with zero questions, `completeCourse` does not succeed as the spec
requires; it returns `ExamNotPassed` because the code checks `examPassed`
unconditionally, never consulting the question bank.  (With zero questions
`submitExam` always fails with `NoQuestions`, so `examPassed` can never become
true and such a course is permanently uncompletable.) -/
theorem completeCourse_rejects_zero_question_course :
    exZeroQuestionCourse.questions = []
    ∧ exReadyEnrollment.contentProgress = 100
    ∧ exReadyEnrollment.examPassed = false
    ∧ exReadyEnrollment.completed = false
    ∧ completeCourse exReadyEnrollment 0 = .examNotPassed none 0 := by
  refine ⟨rfl, rfl, rfl, rfl, ?_⟩
  rfl

/-- Claim C2 (code bug evidence): on the same state — content complete, zero
questions, exam never passed — the status query reports
`canGetCertificate = true` while `completeCourse` fails its exam gate, so the
status-gate predicate and the completion-gate enforcement are not identical. -/
theorem canGetCertificate_diverges_from_completeCourse :
    (getProgress exZeroQuestionCourse exReadyEnrollment).canGetCertificate = true
    ∧ completeOk (completeCourse exReadyEnrollment 0) = false := by
  exact ⟨rfl, rfl⟩

/-! ### Claim C10: frame of `updateProgress` -/

/-- Claim C10: an `updateProgress` call changes at most `contentProgress`,
`timeSpentSeconds`, `contentCompletedAt` and `progress` on the enrollment —
`examPassed`, `examScore`, `examAttemptCount`, `completed`, `completedAt` and
`certificateUrl` are always returned unchanged — and the course row changes at
most by adopting a client-supplied positive duration into
`contentDurationSeconds`. -/
theorem updateProgress_frame (c : Course) (e : Enrollment) (input : ProgressInput)
    (now : Nat) :
    (updateProgress c e input now).enrollment.examPassed = e.examPassed
    ∧ (updateProgress c e input now).enrollment.examScore = e.examScore
    ∧ (updateProgress c e input now).enrollment.examAttemptCount = e.examAttemptCount
    ∧ (updateProgress c e input now).enrollment.completed = e.completed
    ∧ (updateProgress c e input now).enrollment.completedAt = e.completedAt
    ∧ (updateProgress c e input now).enrollment.certificateUrl = e.certificateUrl
    ∧ ((updateProgress c e input now).course = c
        ∨ ∃ t, 0 < t ∧ input.totalDurationSeconds = some t
            ∧ (updateProgress c e input now).course
                = { c with contentDurationSeconds := some t }) := by
  refine ⟨rfl, rfl, rfl, rfl, rfl, rfl, ?_⟩
  obtain ⟨ct, tc, cds, rrm, ps, qs⟩ := c
  cases ct
  · left; rfl
  · exact videoAudioProgress_course_eq ⟨ContentType.video, tc, cds, rrm, ps, qs⟩ e input
  · exact videoAudioProgress_course_eq ⟨ContentType.audio, tc, cds, rrm, ps, qs⟩ e input

/-! ### Claim C7: millisecond unit correction for video/audio positions -/

/-- Claim C7: in a video/audio update with a known duration `d > 0`, a reported
position `p > 2*d` is reinterpreted as `p / 1000` seconds before computing
`round(position / duration * 100)`, and the stored progress is that value
clamped between the previous progress and 100. -/
theorem video_unit_correction (c : Course) (e : Enrollment) (input : ProgressInput)
    (now : Nat) (p d : ℚ)
    (hct : c.contentType = ContentType.video ∨ c.contentType = ContentType.audio)
    (hdur : c.contentDurationSeconds = some d) (hd : 0 < d)
    (hpos : input.currentPositionSeconds = some p)
    (hms : 2 * d < p) (_hprev : 0 ≤ e.contentProgress) :
    (updateProgress c e input now).enrollment.contentProgress
      = min 100 (max e.contentProgress (round (p / 1000 / d * 100))) := by
  obtain ⟨ct, tc, cds, rrm, ps, qs⟩ := c
  simp only at hct hdur
  subst hdur
  have hfix : d * 2 < p := by linarith
  rcases hct with h | h <;> subst h <;>
    simp [updateProgress, videoAudioProgress, hpos, hd.ne', hfix, hd, jsOrZero_eq,
      div_div]

/-- Witness for C7, the instance named by the claim: position 5000 with known
duration 120 is treated as 5 seconds, and the stored progress of a fresh
enrollment becomes `round(5 / 120 * 100) = 4`, not 100. -/
theorem video_unit_correction_witness :
    (updateProgress exVideoCourse initEnrollment exVideoInput 0).enrollment.contentProgress
      = 4 := by
  have h := video_unit_correction exVideoCourse initEnrollment exVideoInput 0 5000 120
    (Or.inl rfl) rfl (by norm_num) rfl (by norm_num) (by norm_num [initEnrollment])
  rw [h]
  norm_num [initEnrollment, round_eq]

/-! ### Claim C8: text reading-time progress -/

/-- Claim C8: for text content, every reported `timeSpentSeconds` is added to
the cumulative counter; the required reading seconds resolve by priority
(explicit minutes, word count at 200 wpm with a 10-second floor, fallback 10);
stored progress is `min(100, round(cumulative / required * 100))`; a 400-word
body with no explicit reading time requires 120 seconds, so reporting 60 then
60 more seconds yields 50 then exactly 100. -/
theorem text_reading_progress (c : Course) (e : Enrollment) (input : ProgressInput)
    (now : Nat) (hct : c.contentType = ContentType.text) :
    ((updateProgress c e input now).enrollment.timeSpentSeconds
        = e.timeSpentSeconds + input.timeSpentSeconds.getD 0
      ∧ (updateProgress c e input now).enrollment.contentProgress
        = min 100 (round ((e.timeSpentSeconds + input.timeSpentSeconds.getD 0)
            / requiredSecondsFor c * 100)))
    ∧ (∀ m : ℤ, c.requiredReadingMinutes = some m → m ≠ 0 →
        requiredSecondsFor c = (m : ℚ) * 60)
    ∧ (∀ s, numTruthy c.requiredReadingMinutes = false → c.textContent = some s →
        s ≠ "" →
        requiredSecondsFor c = ((max (⌈((jsWordCount s : ℚ) / 200) * 60⌉) 10 : ℤ) : ℚ))
    ∧ (numTruthy c.requiredReadingMinutes = false →
        strTruthy c.textContent = false → requiredSecondsFor c = 10)
    ∧ (∀ s, c.requiredReadingMinutes = none → c.textContent = some s →
        jsWordCount s = 400 →
        requiredSecondsFor c = 120
        ∧ (runUpdates (c, initEnrollment) [⟨none, none, some 60⟩] now).2.contentProgress = 50
        ∧ (runUpdates (c, initEnrollment) [⟨none, none, some 60⟩, ⟨none, none, some 60⟩]
            now).2.contentProgress = 100) := by
  obtain ⟨ct, tc, cds, rrm, ps, qs⟩ := c
  simp only at hct
  subst hct
  refine ⟨⟨?_, ?_⟩, ?_, ?_, ?_, ?_⟩
  · simp [updateProgress, textProgress, jsOrZeroQ_eq]
  · simp [updateProgress, textProgress, jsOrZeroQ_eq]
  · intro m hm hm0
    simp only at hm
    subst hm
    simp [requiredSecondsFor, numTruthy, hm0]
  · intro s hnum hs hs0
    simp only at hnum hs ⊢
    simp [requiredSecondsFor, hnum, hs, strTruthy, hs0]
  · intro hnum hstr
    simp only at hnum hstr ⊢
    simp [requiredSecondsFor, hnum, hstr]
  · intro s hrm hs hwc
    simp only at hrm hs
    subst hrm hs
    have hreq : requiredSecondsFor
        ⟨ContentType.text, some s, cds, none, ps, qs⟩ = 120 := by
      have hs0 : s ≠ "" := by
        intro h
        rw [h] at hwc
        simp [jsWordCount, jsTrim] at hwc
      simp only [requiredSecondsFor, numTruthy, strTruthy]
      norm_num [hs0]
      rw [hwc]
      norm_num
    refine ⟨hreq, ?_, ?_⟩
    · simp [runUpdates, updateStep, updateProgress, textProgress, hreq,
        initEnrollment, jsOrZeroQ_eq]
      norm_num [round_eq]
    · simp [runUpdates, updateStep, updateProgress, textProgress, hreq,
        initEnrollment, jsOrZeroQ_eq]
      norm_num [round_eq]

/-- A 400-word text body: 400 occurrences of `w` separated by single spaces. -/
def exBody400 : String := String.mk ((List.replicate 399 ['w', ' ']).flatten ++ ['w'])

/-- A text course with a 400-word body and no explicit reading requirement. -/
def exText400Course : Course :=
  { contentType := .text
    textContent := some exBody400
    contentDurationSeconds := none
    requiredReadingMinutes := none
    passingScore := 70
    questions := [] }

set_option maxRecDepth 100000 in
/-- Witness for C8, the instance named by the claim: the 400-word body with no
explicit `requiredReadingMinutes` resolves to 120 required seconds, and
reporting 60 then 60 more seconds stores 50 then exactly 100. -/
theorem text_reading_progress_witness :
    requiredSecondsFor exText400Course = 120
    ∧ (runUpdates (exText400Course, initEnrollment)
        [⟨none, none, some 60⟩] 0).2.contentProgress = 50
    ∧ (runUpdates (exText400Course, initEnrollment)
        [⟨none, none, some 60⟩, ⟨none, none, some 60⟩] 0).2.contentProgress = 100 :=
  (text_reading_progress exText400Course initEnrollment ⟨none, none, some 60⟩ 0
    rfl).2.2.2.2 exBody400 rfl rfl (by decide)

/-! ### Claim C4: absorption of malformed/missing telemetry -/

/-- A text course with an explicit 2-minute reading requirement
(`requiredSeconds = 120`). -/
def exTwoMinuteTextCourse : Course :=
  { contentType := .text
    textContent := none
    contentDurationSeconds := none
    requiredReadingMinutes := some 2
    passingScore := 70
    questions := [] }

/-- An enrollment whose stored progress (50) does not match its cumulative
reading time (0) — e.g. the course's content type or reading requirement was
edited after the progress was earned. -/
def exInconsistentEnrollment : Enrollment :=
  { initEnrollment with contentProgress := 50, progress := 50 }

/-- The resolved required reading seconds are never zero (for any course):
a truthy explicit minute count is non-zero, the word-count path is floored at
10, and the fallback is 10. -/
theorem requiredSecondsFor_ne_zero (c : Course) : requiredSecondsFor c ≠ 0 := by
  unfold requiredSecondsFor
  by_cases hnum : numTruthy c.requiredReadingMinutes = true
  · rw [if_pos hnum]
    cases hm : c.requiredReadingMinutes with
    | none => simp [numTruthy, hm] at hnum
    | some m =>
      have hne : m ≠ 0 := by simpa [numTruthy, hm] using hnum
      simp only [Option.getD_some]
      exact mul_ne_zero (by exact_mod_cast hne) (by norm_num)
  · rw [if_neg hnum]
    by_cases hstr : strTruthy c.textContent = true
    · rw [if_pos hstr]
      dsimp only
      have h10 : (10 : ℤ)
          ≤ max (⌈((jsWordCount (c.textContent.getD "") : ℚ) / 200) * 60⌉) 10 :=
        le_max_right _ _
      exact_mod_cast (by omega :
        ¬ max (⌈((jsWordCount (c.textContent.getD "") : ℚ) / 200) * 60⌉) 10 = 0)
    · rw [if_neg hstr]
      norm_num

/-- Claim C4 counterexample: two failures of the claim on the text branch.
An update with a *missing* `timeSpentSeconds` is not a no-op on stored
progress — the branch recomputes progress from the cumulative time, dropping
this enrollment's stored progress from 50 to 0.  And an update whose
`timeSpentSeconds` is the *non-numeric string* `"abc"` is not absorbed at
all: the truthy string survives `|| 0`, concatenates to `"0abc"`, the
computed `contentProgress` is `NaN`, and the save is rejected by the model
validators — the operation errors instead of succeeding. -/
theorem malformed_telemetry_counterexample :
    exInconsistentEnrollment.contentProgress = 50
    ∧ (updateProgress exTwoMinuteTextCourse exInconsistentEnrollment
        ⟨none, none, none⟩ 0).enrollment.contentProgress = 0
    ∧ (textUpdateJS exTwoMinuteTextCourse 0 (BodyValue.str "abc")).newTimeSpent
        = Sum.inr "0abc"
    ∧ (textUpdateJS exTwoMinuteTextCourse 0 (BodyValue.str "abc")).contentProgress
        = JSNumber.nan
    ∧ (textUpdateJS exTwoMinuteTextCourse 0 (BodyValue.str "abc")).saved = false := by
  refine ⟨rfl, ?_, by decide, by decide, by decide⟩
  simp [updateProgress, textProgress, requiredSecondsFor, numTruthy, jsOrZeroQ_eq,
    exTwoMinuteTextCourse, exInconsistentEnrollment, initEnrollment]

/-- Claim C4 as amended: the fate of malformed/missing telemetry depends on
the content type and on the shape of the malformed value.  (1) A video/audio
update with malformed or missing position leaves both progress and cumulative
time untouched, unconditionally.  (2) A text update with an *absent* (or
null/falsy) `timeSpentSeconds` leaves the cumulative time unchanged and
recomputes progress from it, so progress is unchanged exactly in states whose
stored progress already agrees with that recomputation (as in any state
produced by text updates themselves).  (3) A text update whose
`timeSpentSeconds` is a non-empty string whose concatenation onto the stored
counter is not numeric is *rejected*, not absorbed: the computed
`contentProgress` is `NaN` and the save fails the model validators, so the
request errors and no state is persisted.  (4) On numeric input the JS-typed
pipeline computes exactly the progress of the numeric fragment, tying the two
models together. -/
theorem malformed_telemetry_outcome :
    (∀ (c : Course) (e : Enrollment) (input : ProgressInput) (now : Nat),
      (c.contentType = ContentType.video ∨ c.contentType = ContentType.audio) →
      input.currentPositionSeconds = none →
      (updateProgress c e input now).enrollment.contentProgress = e.contentProgress
      ∧ (updateProgress c e input now).enrollment.timeSpentSeconds = e.timeSpentSeconds)
    ∧ (∀ (c : Course) (e : Enrollment) (input : ProgressInput) (now : Nat),
      c.contentType = ContentType.text →
      input.timeSpentSeconds = none →
      (updateProgress c e input now).enrollment.timeSpentSeconds = e.timeSpentSeconds
      ∧ (updateProgress c e input now).enrollment.contentProgress
          = min 100 (round (e.timeSpentSeconds / requiredSecondsFor c * 100))
      ∧ (e.contentProgress
            = min 100 (round (e.timeSpentSeconds / requiredSecondsFor c * 100)) →
          (updateProgress c e input now).enrollment.contentProgress
            = e.contentProgress))
    ∧ (∀ (c : Course) (ts : ℤ) (s : String),
      c.contentType = ContentType.text → s ≠ "" →
      jsStringToNumber (jsIntToString (jsOrZero ts) ++ s) = JSNumber.nan →
      (textUpdateJS c ts (BodyValue.str s)).newTimeSpent
          = Sum.inr (jsIntToString (jsOrZero ts) ++ s)
      ∧ (textUpdateJS c ts (BodyValue.str s)).contentProgress = JSNumber.nan
      ∧ (textUpdateJS c ts (BodyValue.str s)).saved = false)
    ∧ (∀ (c : Course) (ts : ℤ) (q : ℚ),
      (textUpdateJS c ts (BodyValue.num q)).contentProgress
        = JSNumber.fin
            ((min 100 (round (((ts : ℚ) + q) / requiredSecondsFor c * 100)) : ℤ) : ℚ)) := by
  refine ⟨?_, ?_, ?_, ?_⟩
  · intro c e input now hct hpos
    obtain ⟨ct, tc, cds, rrm, ps, qs⟩ := c
    simp only at hct
    rcases hct with h | h <;> subst h <;>
      simp [updateProgress, videoAudioProgress, hpos]
  · intro c e input now hct hts
    obtain ⟨ct, tc, cds, rrm, ps, qs⟩ := c
    simp only at hct
    subst hct
    refine ⟨?_, ?_, ?_⟩
    · simp [updateProgress, textProgress, hts, jsOrZeroQ_eq]
    · simp [updateProgress, textProgress, hts, jsOrZeroQ_eq]
    · intro hcons
      simp [updateProgress, textProgress, hts, jsOrZeroQ_eq]
      exact hcons.symm
  · intro c ts s _hct hs hparse
    have hinc : jsOrZeroBody (BodyValue.str s) = BodyValue.str s := by
      simp [jsOrZeroBody, hs]
    refine ⟨?_, ?_, ?_⟩
    · simp only [textUpdateJS, hinc]
    · simp only [textUpdateJS, hinc, hparse]
      rfl
    · simp only [textUpdateJS, hinc, hparse]
      rfl
  · intro c ts q
    have hne := requiredSecondsFor_ne_zero c
    have key : ∀ x : ℚ,
        jsMin100 (jsRound (jsMul100 (jsDiv (JSNumber.fin x) (requiredSecondsFor c))))
          = JSNumber.fin ((min 100 (round (x / requiredSecondsFor c * 100)) : ℤ) : ℚ) := by
      intro x
      simp only [jsDiv, if_neg hne, jsMul100, jsRound, jsMin100, JSNumber.fin.injEq]
      push_cast
      rfl
    have hinc : jsOrZeroBody (BodyValue.num q) = BodyValue.num q := by
      by_cases hq : q = 0
      · subst hq; simp [jsOrZeroBody]
      · simp [jsOrZeroBody, hq]
    simp only [textUpdateJS, hinc, jsOrZero_eq]
    exact key _

/-- Witness for the amended C4: on a fresh enrollment, a video update with no
numeric position and a text update with no numeric time increment both leave
the stored progress at its previous value; the text update with the
non-numeric string `"abc"` fails the save; and the JS-typed pipeline agrees
with the numeric fragment on the number 60 (progress 50 at 120 required
seconds). -/
theorem malformed_telemetry_outcome_witness :
    (updateProgress exVideoCourse initEnrollment ⟨none, some 10, none⟩
        0).enrollment.contentProgress = initEnrollment.contentProgress
    ∧ (updateProgress exTwoMinuteTextCourse initEnrollment ⟨none, none, none⟩
        0).enrollment.contentProgress = initEnrollment.contentProgress
    ∧ (textUpdateJS exTwoMinuteTextCourse 0 (BodyValue.str "abc")).saved = false
    ∧ (textUpdateJS exTwoMinuteTextCourse 0 (BodyValue.num 60)).contentProgress
        = JSNumber.fin 50 := by
  refine ⟨?_, ?_, ?_, ?_⟩
  · exact (malformed_telemetry_outcome.1 exVideoCourse initEnrollment
      ⟨none, some 10, none⟩ 0 (Or.inl rfl) rfl).1
  · apply (malformed_telemetry_outcome.2.1 exTwoMinuteTextCourse initEnrollment
      ⟨none, none, none⟩ 0 rfl rfl).2.2
    simp [initEnrollment, exTwoMinuteTextCourse, requiredSecondsFor, numTruthy]
  · exact (malformed_telemetry_outcome.2.2.1 exTwoMinuteTextCourse 0 "abc" rfl
      (by decide) (by decide)).2.2
  · have h := malformed_telemetry_outcome.2.2.2 exTwoMinuteTextCourse 0 60
    rw [h]
    have hreq : requiredSecondsFor exTwoMinuteTextCourse = 120 := by
      norm_num [requiredSecondsFor, numTruthy, exTwoMinuteTextCourse]
    rw [hreq]
    norm_num [round_eq, JSNumber.fin.injEq]

/-! ### Claim C3: monotonicity of `contentProgress` -/

/-- Claim C3 counterexample: with a 120-second reading requirement, reporting
120 seconds brings stored progress to 100, and a subsequent update reporting a
negative `timeSpentSeconds` of −60 drops it back to 50 — the text branch has
no monotonic clamp, so arbitrary (negative) increments can reduce progress. -/
theorem contentProgress_decreases_on_negative_increment :
    (runUpdates (exTwoMinuteTextCourse, initEnrollment)
        [⟨none, none, some 120⟩] 0).2.contentProgress = 100
    ∧ (runUpdates (exTwoMinuteTextCourse, initEnrollment)
        [⟨none, none, some 120⟩, ⟨none, none, some (-60)⟩] 0).2.contentProgress = 50 := by
  constructor <;>
    · simp [runUpdates, updateStep, updateProgress, textProgress, requiredSecondsFor,
        numTruthy, jsOrZeroQ_eq, exTwoMinuteTextCourse, initEnrollment]
      norm_num [round_eq]

/-- Well-formedness of a course row: a stored explicit reading requirement is
non-negative (the column holds a number of minutes). -/
def CourseWf (c : Course) : Prop :=
  ∀ m : ℤ, c.requiredReadingMinutes = some m → 0 ≤ m

/-- The resolved required reading seconds of a well-formed course are positive. -/
theorem requiredSecondsFor_pos (c : Course) (h : CourseWf c) :
    0 < requiredSecondsFor c := by
  unfold requiredSecondsFor
  by_cases hnum : numTruthy c.requiredReadingMinutes = true
  · rw [if_pos hnum]
    cases hm : c.requiredReadingMinutes with
    | none => simp [numTruthy, hm] at hnum
    | some m =>
      have hne : m ≠ 0 := by simpa [numTruthy, hm] using hnum
      have h1 : 1 ≤ m := by have := h m hm; omega
      simp only [Option.getD_some]
      have hq : (1 : ℚ) ≤ (m : ℚ) := by exact_mod_cast h1
      linarith
  · rw [if_neg hnum]
    by_cases hstr : strTruthy c.textContent = true
    · rw [if_pos hstr]
      have h10 : (10 : ℤ)
          ≤ max (⌈((jsWordCount (c.textContent.getD "") : ℚ) / 200) * 60⌉) 10 :=
        le_max_right _ _
      have hq : (10 : ℚ)
          ≤ ((max (⌈((jsWordCount (c.textContent.getD "") : ℚ) / 200) * 60⌉) 10 : ℤ) : ℚ) := by
        exact_mod_cast h10
      linarith
    · rw [if_neg hstr]
      norm_num

/-- Invariant maintained by the progress updater along any trace with
non-negative reported time: progress stays within 0–100, and on text courses
it never exceeds the value recomputed from the cumulative time. -/
def ProgressInv (c : Course) (e : Enrollment) : Prop :=
  0 ≤ e.contentProgress ∧ e.contentProgress ≤ 100
  ∧ (c.contentType = ContentType.text →
      0 ≤ e.timeSpentSeconds
      ∧ e.contentProgress
          ≤ min 100 (round (e.timeSpentSeconds / requiredSecondsFor c * 100)))

/-- Rounding on ℚ is monotone. -/
theorem roundQ_mono {x y : ℚ} (h : x ≤ y) : round x ≤ round y := by
  rw [round_eq, round_eq]
  exact Int.floor_le_floor (by linarith)

/-- The if-shape the video/audio branch produces once a finite position is
present: either the guard fails and progress is unchanged, or the result is
clamped between the previous progress and 100. -/
theorem clampShape (cp : ℤ) (D P : ℚ) :
    (if 0 < D then min 100 (max (jsOrZero cp) (round (P / D * 100))) else cp) = cp
    ∨ ∃ v : ℤ,
      (if 0 < D then min 100 (max (jsOrZero cp) (round (P / D * 100))) else cp)
        = min 100 (max cp v) := by
  split
  · right
    exact ⟨_, by rw [jsOrZero_eq]⟩
  · left; rfl

/-- The progress computed by the video/audio branch is either unchanged or a
value clamped between the previous progress and 100. -/
theorem videoAudioProgress_fst (c : Course) (e : Enrollment) (input : ProgressInput) :
    (videoAudioProgress c e input).1 = e.contentProgress
    ∨ ∃ v : ℤ, (videoAudioProgress c e input).1
        = min 100 (max e.contentProgress v) := by
  unfold videoAudioProgress
  cases hp : input.currentPositionSeconds with
  | none => left; simp [hp]
  | some p =>
    simp only [hp, Option.map_some']
    exact clampShape e.contentProgress _ _

/-- The video/audio branch can only patch `contentDurationSeconds` on the
course row, so well-formedness is preserved. -/
theorem videoAudioProgress_wf (c : Course) (e : Enrollment) (input : ProgressInput)
    (hwf : CourseWf c) : CourseWf (videoAudioProgress c e input).2 := by
  rcases videoAudioProgress_course_eq c e input with h | ⟨t, _, _, h⟩ <;>
    rw [h] <;> exact hwf

/-- The video/audio branch preserves the course's content type. -/
theorem videoAudioProgress_contentType (c : Course) (e : Enrollment)
    (input : ProgressInput) :
    (videoAudioProgress c e input).2.contentType = c.contentType := by
  rcases videoAudioProgress_course_eq c e input with h | ⟨t, _, _, h⟩ <;> rw [h]

/-- One `updateProgress` call never decreases stored progress (given
non-negative reported time) and preserves the trace invariant. -/
theorem updateProgress_mono_step (c : Course) (e : Enrollment) (input : ProgressInput)
    (now : Nat) (hwf : CourseWf c) (hinv : ProgressInv c e)
    (hinc : 0 ≤ input.timeSpentSeconds.getD 0) :
    e.contentProgress ≤ (updateProgress c e input now).enrollment.contentProgress
    ∧ CourseWf (updateProgress c e input now).course
    ∧ ProgressInv (updateProgress c e input now).course
        (updateProgress c e input now).enrollment := by
  obtain ⟨h0, h100, htext⟩ := hinv
  obtain ⟨ct, tc, cds, rrm, ps, qs⟩ := c
  cases ct with
  | text =>
    obtain ⟨hts0, hcple⟩ := htext rfl
    set c : Course := ⟨ContentType.text, tc, cds, rrm, ps, qs⟩ with hc
    have hreq : 0 < requiredSecondsFor c := requiredSecondsFor_pos c hwf
    have hcp : (updateProgress c e input now).enrollment.contentProgress
        = min 100 (round ((e.timeSpentSeconds + input.timeSpentSeconds.getD 0)
            / requiredSecondsFor c * 100)) := by
      simp [updateProgress, textProgress, jsOrZeroQ_eq]
    have hts : (updateProgress c e input now).enrollment.timeSpentSeconds
        = e.timeSpentSeconds + input.timeSpentSeconds.getD 0 := by
      simp [updateProgress, textProgress, jsOrZeroQ_eq]
    have hcourse : (updateProgress c e input now).course = c := rfl
    have harg : e.timeSpentSeconds / requiredSecondsFor c * 100
        ≤ (e.timeSpentSeconds + input.timeSpentSeconds.getD 0)
            / requiredSecondsFor c * 100 := by
      gcongr
      linarith
    have hargnn : 0 ≤ (e.timeSpentSeconds + input.timeSpentSeconds.getD 0)
        / requiredSecondsFor c * 100 := by positivity
    have hroundnn : 0 ≤ round ((e.timeSpentSeconds + input.timeSpentSeconds.getD 0)
        / requiredSecondsFor c * 100) := by
      have := roundQ_mono hargnn
      rwa [round_zero] at this
    refine ⟨?_, ?_, ?_, ?_, ?_⟩
    · rw [hcp]
      exact le_trans hcple (min_le_min (le_refl 100) (roundQ_mono harg))
    · rw [hcourse]; exact hwf
    · rw [hcp]
      exact le_min (by norm_num) hroundnn
    · rw [hcp]
      exact min_le_left _ _
    · intro _
      rw [hcp, hts, hcourse]
      exact ⟨add_nonneg hts0 hinc, le_refl _⟩
  | video =>
    set c : Course := ⟨ContentType.video, tc, cds, rrm, ps, qs⟩ with hc
    have hcp : (updateProgress c e input now).enrollment.contentProgress
        = (videoAudioProgress c e input).1 := rfl
    have hcourse : (updateProgress c e input now).course
        = (videoAudioProgress c e input).2 := rfl
    have hnottext : (updateProgress c e input now).course.contentType
        ≠ ContentType.text := by
      rw [hcourse, videoAudioProgress_contentType]
      intro h
      exact ContentType.noConfusion h
    rcases videoAudioProgress_fst c e input with hf | ⟨v, hf⟩
    · exact ⟨by rw [hcp, hf], by rw [hcourse]; exact videoAudioProgress_wf c e input hwf,
        by rw [hcp, hf]; exact h0, by rw [hcp, hf]; exact h100,
        fun h => absurd h hnottext⟩
    · refine ⟨?_, by rw [hcourse]; exact videoAudioProgress_wf c e input hwf,
        ?_, ?_, fun h => absurd h hnottext⟩
      · rw [hcp, hf]
        exact le_min h100 (le_max_left _ _)
      · rw [hcp, hf]
        exact le_min (by norm_num) (le_trans h0 (le_max_left _ _))
      · rw [hcp, hf]
        exact min_le_left _ _
  | audio =>
    set c : Course := ⟨ContentType.audio, tc, cds, rrm, ps, qs⟩ with hc
    have hcp : (updateProgress c e input now).enrollment.contentProgress
        = (videoAudioProgress c e input).1 := rfl
    have hcourse : (updateProgress c e input now).course
        = (videoAudioProgress c e input).2 := rfl
    have hnottext : (updateProgress c e input now).course.contentType
        ≠ ContentType.text := by
      rw [hcourse, videoAudioProgress_contentType]
      intro h
      exact ContentType.noConfusion h
    rcases videoAudioProgress_fst c e input with hf | ⟨v, hf⟩
    · exact ⟨by rw [hcp, hf], by rw [hcourse]; exact videoAudioProgress_wf c e input hwf,
        by rw [hcp, hf]; exact h0, by rw [hcp, hf]; exact h100,
        fun h => absurd h hnottext⟩
    · refine ⟨?_, by rw [hcourse]; exact videoAudioProgress_wf c e input hwf,
        ?_, ?_, fun h => absurd h hnottext⟩
      · rw [hcp, hf]
        exact le_min h100 (le_max_left _ _)
      · rw [hcp, hf]
        exact le_min (by norm_num) (le_trans h0 (le_max_left _ _))
      · rw [hcp, hf]
        exact min_le_left _ _

/-- Along any sequence of updates with non-negative reported time, the trace
invariant is maintained and stored progress never decreases. -/
theorem runUpdates_mono_inv (now : Nat) :
    ∀ (inputs : List ProgressInput) (s : Course × Enrollment),
      CourseWf s.1 → ProgressInv s.1 s.2 →
      (∀ i ∈ inputs, 0 ≤ i.timeSpentSeconds.getD 0) →
      CourseWf (runUpdates s inputs now).1
      ∧ ProgressInv (runUpdates s inputs now).1 (runUpdates s inputs now).2
      ∧ s.2.contentProgress ≤ (runUpdates s inputs now).2.contentProgress := by
  intro inputs
  induction inputs with
  | nil => exact fun s hwf hinv _ => ⟨hwf, hinv, le_refl _⟩
  | cons i rest ih =>
    intro s hwf hinv hnn
    have hstep := updateProgress_mono_step s.1 s.2 i now hwf hinv (hnn i (by simp))
    have hrec := ih (updateStep now s i) hstep.2.1 hstep.2.2
      (fun j hj => hnn j (by simp [hj]))
    exact ⟨hrec.1, hrec.2.1, le_trans hstep.1 hrec.2.2⟩

/-- Claim C3 as amended: progress is non-decreasing across any update sequence
from enrollment creation on a well-formed course, provided each reported
`timeSpentSeconds` increment is non-negative (the claim's inclusion of
negative increments fails: the text branch recomputes progress from the
cumulative time without a monotonic clamp). -/
theorem contentProgress_monotone_of_nonneg_increments
    (c : Course) (now : Nat) (inputs : List ProgressInput) (input : ProgressInput)
    (hwf : CourseWf c)
    (hnn : ∀ i ∈ inputs, 0 ≤ i.timeSpentSeconds.getD 0)
    (hnn1 : 0 ≤ input.timeSpentSeconds.getD 0) :
    (runUpdates (c, initEnrollment) inputs now).2.contentProgress
      ≤ (runUpdates (c, initEnrollment) (inputs ++ [input]) now).2.contentProgress := by
  have hinv0 : ProgressInv c initEnrollment := by
    refine ⟨le_refl 0, by decide, fun _ => ⟨le_refl 0, ?_⟩⟩
    simp [initEnrollment]
  have h := runUpdates_mono_inv now inputs (c, initEnrollment) hwf hinv0 hnn
  have hstep := updateProgress_mono_step (runUpdates (c, initEnrollment) inputs now).1
    (runUpdates (c, initEnrollment) inputs now).2 input now h.1 h.2.1 hnn1
  have hr : runUpdates (c, initEnrollment) (inputs ++ [input]) now
      = updateStep now (runUpdates (c, initEnrollment) inputs now) input := by
    simp [runUpdates, List.foldl_append]
  rw [hr]
  exact hstep.1

/-- Witness for the amended C3 at a concrete trace: after reporting 60 seconds
on the 2-minute text course, a further report of 30 seconds does not decrease
the stored progress. -/
theorem contentProgress_monotone_witness :
    (runUpdates (exTwoMinuteTextCourse, initEnrollment)
        [⟨none, none, some 60⟩] 0).2.contentProgress
      ≤ (runUpdates (exTwoMinuteTextCourse, initEnrollment)
          ([⟨none, none, some 60⟩] ++ [⟨none, none, some 30⟩]) 0).2.contentProgress := by
  apply contentProgress_monotone_of_nonneg_increments
  · intro m hm
    simp [exTwoMinuteTextCourse] at hm
    omega
  · intro i hi
    simp at hi
    subst hi
    norm_num
  · norm_num

/-! ### Claim C5: exam scoring rules -/

/-- A quiz question whose stored correct answer is a whitespace-only string. -/
def exQuizQuestion : Question :=
  { id := "q1"
    questionText := "?"
    questionType := .quiz
    options := none
    correctAnswer := some " "
    points := 1
    order := 0 }

/-- An answers object mapping every question to the empty string. -/
def exEmptyAnswer : AnswerMap := fun _ => some ""

/-- Claim C5 counterexample: the submitted answer `""` and the stored
`correctAnswer` `" "` agree after trimming and lowercasing, yet the code
awards zero points — JS truthiness short-circuits on the empty string before
the comparison, so "earns its points iff the trimmed, case-insensitive answer
equals the trimmed, case-insensitive correctAnswer" is false as stated. -/
theorem quiz_truthiness_counterexample :
    jsLowerTrim "" = jsLowerTrim " "
    ∧ exQuizQuestion.correctAnswer = some " "
    ∧ exEmptyAnswer exQuizQuestion.id = some ""
    ∧ questionCorrect exQuizQuestion exEmptyAnswer = false
    ∧ (scoreExam [exQuizQuestion] 70 exEmptyAnswer).pointsEarned = 0
    ∧ ¬ (questionCorrect exQuizQuestion exEmptyAnswer = true
          ↔ jsLowerTrim "" = jsLowerTrim " ") := by
  decide

/-- The scoring fold accumulates the sum of a per-question contribution. -/
theorem foldl_add_eq_sum (g : Question → ℤ) :
    ∀ (qs : List Question) (a : ℤ),
      qs.foldl (fun acc q => acc + g q) a = a + (qs.map g).sum := by
  intro qs
  induction qs with
  | nil => intro a; simp
  | cons q rest ih =>
    intro a
    simp only [List.foldl_cons, List.map_cons, List.sum_cons, ih]
    ring

/-- Claim C5 as amended: `totalPoints` sums the points of all questions;
`pointsEarned` sums the points of the questions judged correct; an mcq
question is judged correct iff (assuming its option ids are duplicate-free,
since the code inspects the first option whose id matches) the submitted
answer is the id of an option flagged `isCorrect`; a quiz question is judged
correct iff both the submitted answer and the stored `correctAnswer` are
non-empty strings whose lowercased-and-trimmed forms coincide;
`score = totalPoints > 0 ? pointsEarned / totalPoints * 100 : 0`; and
`passed = score >= passingScore`. -/
theorem scoreExam_scoring_rules (qs : List Question) (passingScore : ℤ)
    (f : AnswerMap) :
    (scoreExam qs passingScore f).totalPoints = (qs.map Question.points).sum
    ∧ (scoreExam qs passingScore f).pointsEarned
        = (qs.map (fun q => if questionCorrect q f then q.points else 0)).sum
    ∧ (∀ q : Question, q.questionType = QuestionType.mcq →
        ((q.options.getD []).map ChoiceOption.id).Nodup →
        (questionCorrect q f = true
          ↔ ∃ opt ∈ q.options.getD [], opt.isCorrect = true ∧ f q.id = some opt.id))
    ∧ (∀ q : Question, q.questionType = QuestionType.quiz →
        (questionCorrect q f = true
          ↔ ∃ s a, f q.id = some s ∧ q.correctAnswer = some a
              ∧ s ≠ "" ∧ a ≠ "" ∧ jsLowerTrim s = jsLowerTrim a))
    ∧ (scoreExam qs passingScore f).score
        = (if 0 < (scoreExam qs passingScore f).totalPoints
            then ((scoreExam qs passingScore f).pointsEarned : ℚ)
                / ((scoreExam qs passingScore f).totalPoints : ℚ) * 100
            else 0)
    ∧ ((scoreExam qs passingScore f).passed = true
        ↔ (passingScore : ℚ) ≤ (scoreExam qs passingScore f).score) := by
  refine ⟨?_, ?_, ?_, ?_, rfl, ?_⟩
  · simpa using foldl_add_eq_sum Question.points qs 0
  · simpa using foldl_add_eq_sum (fun q => if questionCorrect q f then q.points else 0) qs 0
  · intro q hq hnodup
    unfold questionCorrect
    rw [hq]
    cases hopts : q.options with
    | none => simp [hopts]
    | some opts =>
      simp only [hopts, Option.getD_some] at hnodup
      simp only [hopts, Option.getD_some, Option.some_bind]
      constructor
      · intro h
        cases hfind : opts.find? (fun opt => f q.id == some opt.id) with
        | none => rw [hfind] at h; exact absurd h (by simp)
        | some sel =>
          rw [hfind] at h
          have hmem := List.mem_of_find?_eq_some hfind
          have hpred := List.find?_some hfind
          have hans : f q.id = some sel.id := by simpa using hpred
          exact ⟨sel, hmem, h, hans⟩
      · rintro ⟨opt, hmem, hcor, hans⟩
        have hex : ∃ x ∈ opts, (fun o => f q.id == some o.id) x = true :=
          ⟨opt, hmem, by simp [hans]⟩
        rw [← List.find?_isSome] at hex
        cases hfind : opts.find? (fun o => f q.id == some o.id) with
        | none => rw [hfind] at hex; exact absurd hex (by simp)
        | some sel =>
          show sel.isCorrect = true
          have hmem' := List.mem_of_find?_eq_some hfind
          have hpred := List.find?_some hfind
          have hans' : f q.id = some sel.id := by simpa using hpred
          have hid : opt.id = sel.id := by
            rw [hans] at hans'
            exact Option.some.inj hans'
          have heq : opt = sel :=
            List.inj_on_of_nodup_map hnodup hmem hmem' hid
          rwa [← heq]
  · intro q hq
    unfold questionCorrect
    rw [hq]
    cases hans : f q.id with
    | none => simp
    | some s =>
      cases hcor : q.correctAnswer with
      | none => simp
      | some a =>
        simp [Bool.and_eq_true, bne_iff_ne, beq_iff_eq, and_assoc]
  · simp only [scoreExam, decide_eq_true_eq]

/-- A 1-point mcq question with correct option `"a"`. -/
def exMcqQuestion : Question :=
  { id := "Q1"
    questionText := "pick"
    questionType := .mcq
    options := some [⟨"a", "A", true⟩, ⟨"b", "B", false⟩]
    correctAnswer := none
    points := 1
    order := 1 }

/-- A 1-point quiz question with correct answer `"Paris"`. -/
def exQuizParis : Question :=
  { id := "Q2"
    questionText := "capital"
    questionType := .quiz
    options := none
    correctAnswer := some "Paris"
    points := 1
    order := 2 }

/-- The answers object `{Q1: "a", Q2: "paris"}`. -/
def exAnswers : AnswerMap := fun qid =>
  if qid = "Q1" then some "a" else if qid = "Q2" then some "paris" else none

/-- Witness for the amended C5 at the specification's own example: `{Q1: "a",
Q2: "paris"}` scores 100% (case-insensitive quiz match) and passes at
`passingScore = 70`. -/
theorem scoreExam_scoring_rules_witness :
    (scoreExam [exMcqQuestion, exQuizParis] 70 exAnswers).totalPoints = 2
    ∧ (scoreExam [exMcqQuestion, exQuizParis] 70 exAnswers).pointsEarned = 2
    ∧ (scoreExam [exMcqQuestion, exQuizParis] 70 exAnswers).score = 100
    ∧ (scoreExam [exMcqQuestion, exQuizParis] 70 exAnswers).passed = true
    ∧ questionCorrect exMcqQuestion exAnswers = true
    ∧ questionCorrect exQuizParis exAnswers = true := by
  have h := scoreExam_scoring_rules [exMcqQuestion, exQuizParis] 70 exAnswers
  have htot : (scoreExam [exMcqQuestion, exQuizParis] 70 exAnswers).totalPoints = 2 := by
    rw [h.1]; decide
  have hpe : (scoreExam [exMcqQuestion, exQuizParis] 70 exAnswers).pointsEarned = 2 := by
    rw [h.2.1]; decide
  have hscore : (scoreExam [exMcqQuestion, exQuizParis] 70 exAnswers).score = 100 := by
    rw [h.2.2.2.2.1, htot, hpe]
    norm_num
  refine ⟨htot, hpe, hscore, ?_, ?_, ?_⟩
  · rw [h.2.2.2.2.2, hscore]
    norm_num
  · exact (h.2.2.1 exMcqQuestion rfl (by decide)).mpr
      ⟨⟨"a", "A", true⟩, by decide, rfl, by decide⟩
  · exact (h.2.2.2.1 exQuizParis rfl).mpr
      ⟨"paris", "Paris", by decide, rfl, by decide, by decide, by decide⟩

/-! ### Claim C6: attempt bookkeeping of `submitExam` -/

/-- Effects of a successful submission on the enrollment and the attempt row. -/
theorem submitExam_ok_effects (c : Course) (e : Enrollment) (f : AnswerMap)
    (att : ExamAttempt) (e' : Enrollment)
    (h : submitExam c e f = Except.ok (att, e')) :
    e'.examAttemptCount = e.examAttemptCount + 1
    ∧ att.attemptNumber = e.examAttemptCount + 1
    ∧ (e.examPassed = true → e'.examPassed = e.examPassed ∧ e'.examScore = e.examScore) := by
  unfold submitExam at h
  split at h
  · exact absurd h (by simp)
  · split at h
    · exact absurd h (by simp)
    · rw [Except.ok.injEq, Prod.mk.injEq] at h
      obtain ⟨hatt, he'⟩ := h
      subst hatt he'
      refine ⟨?_, rfl, ?_⟩
      · split <;> rfl
      · intro hep
        rw [hep]
        simp only [Bool.not_true, Bool.and_false, if_false]
        exact ⟨rfl, rfl⟩

/-- The attempt counter equals the attempt-history length along any sequence
of submissions, successful or not. -/
theorem runSubmits_count (c : Course) :
    ∀ (fs : List AnswerMap) (s : Enrollment × List ExamAttempt),
      s.1.examAttemptCount = (s.2.length : ℤ) →
      (runSubmits c s fs).1.examAttemptCount = ((runSubmits c s fs).2.length : ℤ) := by
  intro fs
  induction fs with
  | nil => exact fun s h => h
  | cons f rest ih =>
    intro s h
    have hstep : (submitStep c s f).1.examAttemptCount
        = ((submitStep c s f).2.length : ℤ) := by
      unfold submitStep
      cases hsub : submitExam c s.1 f with
      | error err => exact h
      | ok pair =>
        obtain ⟨att, e'⟩ := pair
        have he := (submitExam_ok_effects c s.1 f att e' hsub).1
        simp only
        rw [he, h]
        simp
    exact ih (submitStep c s f) hstep

/-- Claim C6: a submission that reaches scoring increments `examAttemptCount`
by exactly one regardless of outcome, records the attempt with
`attemptNumber = prior examAttemptCount + 1`, never changes `examPassed` or
`examScore` once `examPassed` is true, and keeps `examAttemptCount` equal to
the number of attempt rows of the enrollment. -/
theorem submitExam_attempt_bookkeeping :
    (∀ (c : Course) (e : Enrollment) (f : AnswerMap) (att : ExamAttempt)
        (e' : Enrollment), submitExam c e f = Except.ok (att, e') →
      e'.examAttemptCount = e.examAttemptCount + 1
      ∧ att.attemptNumber = e.examAttemptCount + 1
      ∧ (e.examPassed = true → e'.examPassed = e.examPassed ∧ e'.examScore = e.examScore))
    ∧ (∀ (c : Course) (s : Enrollment × List ExamAttempt) (fs : List AnswerMap),
      s.1.examAttemptCount = (s.2.length : ℤ) →
      (runSubmits c s fs).1.examAttemptCount = ((runSubmits c s fs).2.length : ℤ)) :=
  ⟨submitExam_ok_effects, fun c s fs h => runSubmits_count c fs s h⟩

/-- A course whose exam is the two-question bank of the scoring example. -/
def exExamCourse : Course :=
  { contentType := .video
    textContent := none
    contentDurationSeconds := some 120
    requiredReadingMinutes := none
    passingScore := 70
    questions := [exQuizParis, exMcqQuestion] }

/-- Witness for C6 at a concrete submission: a submission on the two-question
course by the content-complete enrollment increments the attempt counter from
0 to 1 and keeps it equal to the attempt-history length. -/
theorem submitExam_attempt_bookkeeping_witness :
    (runSubmits exExamCourse (exReadyEnrollment, []) [exAnswers]).1.examAttemptCount
        = ((runSubmits exExamCourse (exReadyEnrollment, []) [exAnswers]).2.length : ℤ)
    ∧ (runSubmits exExamCourse (exReadyEnrollment, []) [exAnswers]).1.examAttemptCount
        = 1 := by
  obtain ⟨att, e', hok⟩ :
      ∃ att e', submitExam exExamCourse exReadyEnrollment exAnswers
        = Except.ok (att, e') := by
    unfold submitExam
    rw [if_neg (by decide), if_neg (by decide)]
    exact ⟨_, _, rfl⟩
  have h1 := (submitExam_attempt_bookkeeping.1 exExamCourse exReadyEnrollment
    exAnswers att e' hok).1
  have hrun : runSubmits exExamCourse (exReadyEnrollment, []) [exAnswers]
      = (e', [att]) := by
    simp [runSubmits, submitStep, hok]
  refine ⟨submitExam_attempt_bookkeeping.2 exExamCourse (exReadyEnrollment, [])
    [exAnswers] (by decide), ?_⟩
  rw [hrun]
  simpa [exReadyEnrollment, initEnrollment] using h1

/-! ### Claim C9: exam fetch leaks no answer key -/

instance : IsTotal Question byOrder :=
  ⟨fun a b => le_total a.order b.order⟩

instance : IsTrans Question byOrder :=
  ⟨fun _ _ _ h₁ h₂ => le_trans h₁ h₂⟩

/-- The answer-key-free content of a question: its sanitised form plus its
sort key.  Everything `getExam` responds with is a function of this data. -/
def publicPart (q : Question) : PublicQuestion × ℤ :=
  (sanitizeQuestion q, q.order)

theorem publicPart_order {q₁ q₂ : Question} (h : publicPart q₁ = publicPart q₂) :
    q₁.order = q₂.order :=
  congrArg Prod.snd h

theorem publicPart_byOrder {a₁ a₂ b₁ b₂ : Question}
    (ha : publicPart a₁ = publicPart a₂) (hb : publicPart b₁ = publicPart b₂) :
    byOrder a₁ b₁ ↔ byOrder a₂ b₂ := by
  unfold byOrder
  rw [publicPart_order ha, publicPart_order hb]

/-- Ordered insertion commutes with taking public parts: inserting
publicly-equal elements into publicly-equal lists yields publicly-equal
lists (the comparisons consult only the `order` field). -/
theorem orderedInsert_map_publicPart :
    ∀ (l₁ l₂ : List Question) (a₁ a₂ : Question),
      publicPart a₁ = publicPart a₂ →
      l₁.map publicPart = l₂.map publicPart →
      (List.orderedInsert byOrder a₁ l₁).map publicPart
        = (List.orderedInsert byOrder a₂ l₂).map publicPart := by
  intro l₁
  induction l₁ with
  | nil =>
    intro l₂ a₁ a₂ ha hl
    have : l₂ = [] := by
      cases l₂ with
      | nil => rfl
      | cons b t => exact absurd hl (by simp)
    subst this
    simp [ha]
  | cons b₁ t₁ ih =>
    intro l₂ a₁ a₂ ha hl
    cases l₂ with
    | nil => exact absurd hl (by simp)
    | cons b₂ t₂ =>
      simp only [List.map_cons, List.cons.injEq] at hl
      obtain ⟨hb, ht⟩ := hl
      by_cases hr : byOrder a₁ b₁
      · have hr₂ : byOrder a₂ b₂ := (publicPart_byOrder ha hb).mp hr
        rw [List.orderedInsert, List.orderedInsert, if_pos hr, if_pos hr₂]
        simp only [List.map_cons, ha, hb, ht]
      · have hr₂ : ¬ byOrder a₂ b₂ := fun h => hr ((publicPart_byOrder ha hb).mpr h)
        rw [List.orderedInsert, List.orderedInsert, if_neg hr, if_neg hr₂]
        simp only [List.map_cons, hb, List.cons.injEq]
        exact ⟨trivial, ih t₂ a₁ a₂ ha ht⟩

/-- Insertion sort commutes with taking public parts. -/
theorem insertionSort_map_publicPart :
    ∀ l₁ l₂ : List Question,
      l₁.map publicPart = l₂.map publicPart →
      (List.insertionSort byOrder l₁).map publicPart
        = (List.insertionSort byOrder l₂).map publicPart := by
  intro l₁
  induction l₁ with
  | nil =>
    intro l₂ hl
    have : l₂ = [] := by
      cases l₂ with
      | nil => rfl
      | cons b t => exact absurd hl (by simp)
    subst this
    rfl
  | cons a₁ t₁ ih =>
    intro l₂ hl
    cases l₂ with
    | nil => exact absurd hl (by simp)
    | cons a₂ t₂ =>
      simp only [List.map_cons, List.cons.injEq] at hl
      obtain ⟨ha, ht⟩ := hl
      rw [List.insertionSort, List.insertionSort]
      exact orderedInsert_map_publicPart _ _ a₁ a₂ ha (ih t₂ ht)

/-- Sanitisation is a function of the public part. -/
theorem map_sanitize_of_map_publicPart {l₁ l₂ : List Question}
    (h : l₁.map publicPart = l₂.map publicPart) :
    l₁.map sanitizeQuestion = l₂.map sanitizeQuestion := by
  have h₁ : l₁.map sanitizeQuestion = (l₁.map publicPart).map Prod.fst := by
    rw [List.map_map]; rfl
  have h₂ : l₂.map sanitizeQuestion = (l₂.map publicPart).map Prod.fst := by
    rw [List.map_map]; rfl
  rw [h₁, h₂, h]

/-- Claim C9: for an enrolled caller with complete content, `getExam` returns
the course's questions sorted by `order` with options reduced to `{id, text}`
and no `correctAnswer` field; the response is a function of the bank's public
parts only — two courses whose banks differ only in `isCorrect` flags and
`correctAnswer` texts produce identical responses — together with
`passingScore` and `attemptNumber = examAttemptCount + 1`; incomplete content
fails with `ContentIncomplete`. -/
theorem getExam_sanitized_and_ordered :
    (∀ (c : Course) (e : Enrollment), 100 ≤ e.contentProgress →
      getExam c e = Except.ok
        { questions := (orderedQuestions c).map sanitizeQuestion
          questionCount := ((orderedQuestions c).map sanitizeQuestion).length
          passingScore := c.passingScore
          attemptNumber := e.examAttemptCount + 1 })
    ∧ (∀ c : Course, List.Sorted byOrder (orderedQuestions c))
    ∧ (∀ c : Course, (orderedQuestions c).Perm c.questions)
    ∧ (∀ (c₁ c₂ : Course) (e : Enrollment),
        c₁.questions.map publicPart = c₂.questions.map publicPart →
        c₁.passingScore = c₂.passingScore →
        getExam c₁ e = getExam c₂ e)
    ∧ (∀ (c : Course) (e : Enrollment), e.contentProgress < 100 →
        getExam c e = Except.error GetExamError.contentIncomplete) := by
  refine ⟨?_, ?_, ?_, ?_, ?_⟩
  · intro c e h
    unfold getExam
    rw [if_neg (not_lt.mpr h)]
  · intro c
    exact List.sorted_insertionSort byOrder c.questions
  · intro c
    exact List.perm_insertionSort byOrder c.questions
  · intro c₁ c₂ e hpub hps
    unfold getExam
    by_cases hcp : e.contentProgress < 100
    · rw [if_pos hcp, if_pos hcp]
    · rw [if_neg hcp, if_neg hcp]
      have hq : (orderedQuestions c₁).map sanitizeQuestion
          = (orderedQuestions c₂).map sanitizeQuestion :=
        map_sanitize_of_map_publicPart
          (insertionSort_map_publicPart c₁.questions c₂.questions hpub)
      rw [Except.ok.injEq, ExamView.mk.injEq]
      exact ⟨hq, by rw [hq], hps, rfl⟩
  · intro c e h
    unfold getExam
    rw [if_pos h]

/-- The same course as `exExamCourse` with the answer key altered: the mcq
correct flag moved to option `"b"` and the quiz answer changed. -/
def exExamCourseAltKey : Course :=
  { exExamCourse with
    questions :=
      [{ exQuizParis with correctAnswer := some "Lyon" },
       { exMcqQuestion with
          options := some [⟨"a", "A", false⟩, ⟨"b", "B", true⟩] }] }

/-- Witness for C9: on the two-question course (bank listed out of order), the
fetched exam lists the sanitised questions sorted by `order` with attempt
number 1, and the response is identical to the one for the altered answer
key. -/
theorem getExam_sanitized_and_ordered_witness :
    getExam exExamCourse exReadyEnrollment = Except.ok
      { questions :=
          [{ id := "Q1", questionText := "pick", questionType := .mcq,
             options := some [⟨"a", "A"⟩, ⟨"b", "B"⟩], points := 1 },
           { id := "Q2", questionText := "capital", questionType := .quiz,
             options := none, points := 1 }]
        questionCount := 2
        passingScore := 70
        attemptNumber := 1 }
    ∧ getExam exExamCourse exReadyEnrollment
        = getExam exExamCourseAltKey exReadyEnrollment := by
  constructor
  · rw [getExam_sanitized_and_ordered.1 exExamCourse exReadyEnrollment (by decide)]
    exact congrArg Except.ok (by decide)
  · exact getExam_sanitized_and_ordered.2.2.2.1 exExamCourse exExamCourseAltKey
      exReadyEnrollment (by decide) rfl

end LMS
